import Mathlib

/-!
Shallow embedding of the flight-sales dashboard (`src/app.py`).

Conventions of the embedding:
* Monetary values (`sale_amount`, `sale_target`, completion rates) are `ℚ`.
* `sale_date` is a `Nat`: the app stores dates as ISO `YYYY-MM-DD` strings and
  compares them as text, which agrees with chronological (hence `Nat`) order.
* The password-hashing collaborator (`werkzeug.security`) is modelled as the
  identity hash with exact-match verification; the app only ever round-trips
  through it.
* The SQLite store is a pure value: tables are lists kept in rowid
  (insertion) order, with explicit `next…Id` counters for AUTOINCREMENT.
* The process-wide `DBManager._conn` handle matters: `sqlite3.Connection` has
  no `.closed` attribute, so `DBManager.get_conn` succeeds only when `_conn`
  is `None` (the `or` short-circuits); when some function already holds the
  connection, `cls._conn.closed` raises `AttributeError`, the handler returns
  `None`, and the caller sees a connection failure.  A function that can run
  while the connection is held therefore takes a `connHeld` flag.
* An exception that escapes a modelled function (the second `UNIQUE`
  violation in `get_staff_id_by_name`, whose `IntegrityError` is not caught
  by the sibling handler) is an explicit `raised` outcome.
* pandas float division is modelled by `PandasVal`/`pdDiv`, which keeps the
  IEEE outcomes (`inf`, `-inf`, `nan`) of dividing by zero distinguishable
  from finite rationals.
-/

namespace FlightSales

/-- A row of the `sales_staff` table. -/
structure Staff where
  id : Nat
  username : String
  password_hash : String
  real_name : String
  is_admin : Bool
deriving DecidableEq

/-- A row of the `flight_sales` table. -/
structure Sale where
  id : Nat
  staff_id : Nat
  staff_name : String
  flight_no : String
  sale_date : Nat
  sale_amount : ℚ
  sale_target : ℚ
  completion_rate : ℚ
deriving DecidableEq

/-- The whole database: both tables in rowid order plus AUTOINCREMENT state. -/
structure Store where
  staff : List Staff
  nextStaffId : Nat
  sales : List Sale
  nextSaleId : Nat
deriving DecidableEq

/-- Collaborator model: `generate_password_hash` (identity). -/
def generate_password_hash (p : String) : String := p

/-- Collaborator model: `check_password_hash` (exact match). -/
def check_password_hash (h p : String) : Bool := h == p

/-- Source function `is_strong_password` (app.py lines 112-119). -/
def is_strong_password (password : String) : Bool × String :=
  if password.length < 6 then (false, "密码长度不能少于6位")
  else if ! password.data.any (fun c => decide ('A' ≤ c) && decide (c ≤ 'Z')) then
    (false, "密码需包含至少一个大写字母")
  else if ! password.data.any (fun c => decide ('0' ≤ c) && decide (c ≤ '9')) then
    (false, "密码需包含至少一个数字")
  else (true, "密码强度符合要求")

/-- The user dictionary `login` hands back on success. -/
structure UserInfo where
  id : Nat
  username : String
  real_name : String
  is_admin : Bool
deriving DecidableEq

/-- Query `SELECT ... FROM sales_staff WHERE username = ?` followed by `fetchone`:
first row in rowid order. -/
def findUser (staff : List Staff) (username : String) : Option Staff :=
  staff.find? (fun s => s.username == username)

/-- Source function `login` (app.py lines 178-210).  The third component is the session's
`login_attempts` counter after the call. -/
def login (staff : List Staff) (username password : String) (attempts : Nat) :
    Option UserInfo × String × Nat :=
  if 5 ≤ attempts then
    (none, "登录失败次数过多，请1分钟后再试", attempts)
  else
    match findUser staff username with
    | some u =>
      if check_password_hash u.password_hash password then
        (some ⟨u.id, u.username, u.real_name, u.is_admin⟩, "登录成功", 0)
      else
        (none, "账号或密码错误（剩余尝试次数：" ++ toString (5 - (attempts + 1)) ++ "）",
          attempts + 1)
    | none =>
      (none, "账号或密码错误（剩余尝试次数：" ++ toString (5 - (attempts + 1)) ++ "）",
        attempts + 1)

/-- Source function `register` (app.py lines 213-240).  The `UNIQUE` constraint on `username`
surfaces as the `sqlite3.IntegrityError` branch. -/
def register (store : Store) (username password real_name : String) :
    Bool × String × Store :=
  if username = "" ∨ real_name = "" then (false, "用户名和真实姓名不能为空", store)
  else
    let check := is_strong_password password
    if check.1 = false then (false, check.2, store)
    else if store.staff.any (fun s => s.username == username) then
      (false, "用户名已存在", store)
    else
      (true, "注册成功，请登录",
        { store with
          staff := store.staff ++
            [⟨store.nextStaffId, username, generate_password_hash password, real_name, false⟩],
          nextStaffId := store.nextStaffId + 1 })

/-- Python's `str.replace(" ", "")`. -/
def removeSpaces (s : String) : String := ⟨s.data.filter (fun c => c != ' ')⟩

/-- Outcome of `get_staff_id_by_name`: either the returned
`(staff_id?, message)` pair together with the store after the call, or an
exception escaping the function (the store is unchanged then — the failed
inserts were never committed and `finally` closes the connection). -/
inductive ResolveOutcome where
  | result : Option Nat → String → Store → ResolveOutcome
  | raised : Store → ResolveOutcome
deriving DecidableEq

/-- Source function `get_staff_id_by_name` (app.py lines 128-174).
The empty-name check runs first; then `DBManager.get_conn()` — which fails
whenever the caller already holds the module-level connection (`connHeld`),
since `sqlite3.Connection` has no `.closed` attribute and the resulting
`AttributeError` makes `get_conn` return `None` — and only with a fresh
connection the lookup runs: find a non-admin account by display name, else
auto-provision one with the default password `123456A`; on a `UNIQUE`
collision retry with a `_1` suffix, and if that collides too the second
`IntegrityError` is not caught by the sibling handler and escapes. -/
def get_staff_id_by_name (connHeld : Bool) (store : Store) (staff_name : String) :
    ResolveOutcome :=
  if staff_name = "" then .result none "姓名不能为空" store
  else if connHeld then .result none "数据库连接失败" store
  else
    match store.staff.find? (fun s => s.real_name == staff_name && s.is_admin == false) with
    | some s => .result (some s.id) "查询成功" store
    | none =>
      let temp_username := removeSpaces staff_name
      let temp_password := "123456A"
      if store.staff.any (fun s => s.username == temp_username) then
        let u2 := temp_username ++ "_1"
        if store.staff.any (fun s => s.username == u2) then .raised store
        else
          .result (some store.nextStaffId)
            ("自动创建账号：" ++ u2 ++ " / " ++ temp_password)
            { store with
              staff := store.staff ++
                [⟨store.nextStaffId, u2, generate_password_hash temp_password,
                  staff_name, false⟩],
              nextStaffId := store.nextStaffId + 1 }
      else
        .result (some store.nextStaffId)
          ("自动创建账号：" ++ temp_username ++ " / " ++ temp_password)
          { store with
            staff := store.staff ++
              [⟨store.nextStaffId, temp_username, generate_password_hash temp_password,
                staff_name, false⟩],
            nextStaffId := store.nextStaffId + 1 }

/-- Source function `add_flight_sale` (app.py lines 294-318): single-record insertion.
The Python code checks amount/target before the flight number. -/
def add_flight_sale (store : Store) (staff_id : Nat) (staff_name flight_no : String)
    (sale_date : Nat) (sale_amount sale_target : ℚ) : Bool × String × Store :=
  if sale_amount ≤ 0 ∨ sale_target ≤ 0 then (false, "销售额和销售指标必须大于0", store)
  else if flight_no = "" then (false, "航班号不能为空", store)
  else
    let completion_rate := if 0 < sale_target then sale_amount / sale_target else 0
    (true, "航班销售数据提交成功",
      { store with
        sales := store.sales ++
          [⟨store.nextSaleId, staff_id, staff_name, flight_no, sale_date,
            sale_amount, sale_target, completion_rate⟩],
        nextSaleId := store.nextSaleId + 1 })

/-- Source function `delete_flight_sale` (app.py lines 321-336):
`DELETE FROM flight_sales WHERE id = ? AND staff_id = ?`, then report success
regardless of how many rows matched. -/
def delete_flight_sale (store : Store) (sale_id staff_id : Nat) : Bool × String × Store :=
  (true, "删除成功",
    { store with
      sales := store.sales.filter (fun r => ! (r.id == sale_id && r.staff_id == staff_id)) })

/-- One row of the five-person batch form. -/
structure BatchEntry where
  staff_name : String
  flight_no : String
  sale_date : Nat
  sale_amount : ℚ
  sale_target : ℚ
deriving DecidableEq

/-- Skip guard of `add_batch_flight_sales` (app.py line 261):
`if not staff_name or not flight_no or sale_amount <= 0 or sale_target <= 0`. -/
def batchSkip (e : BatchEntry) : Bool :=
  e.staff_name == "" || e.flight_no == "" ||
    decide (e.sale_amount ≤ 0) || decide (e.sale_target ≤ 0)

/-- Loop state of `add_batch_flight_sales`: counter, failure messages, the
database, and whether an exception is propagating out of the loop. -/
structure BatchAcc where
  success_count : Nat
  fail_messages : List String
  db : Store
  raised : Bool
deriving DecidableEq

/-- Body of the loop in `add_batch_flight_sales` (app.py lines 253-278).
The loop runs while `add_batch_flight_sales` holds the module-level
connection, so staff resolution is called with `connHeld = true`; a `None`
staff id appends `f"{staff_name}：{msg}"` and continues, a resolved id would
insert the row, and an escaping exception stops the loop. -/
def addBatchStep (acc : BatchAcc) (e : BatchEntry) : BatchAcc :=
  if acc.raised then acc
  else if batchSkip e then acc
  else
    match get_staff_id_by_name true acc.db e.staff_name with
    | .result none msg st =>
      { acc with fail_messages := acc.fail_messages ++ [e.staff_name ++ "：" ++ msg], db := st }
    | .result (some sid) _ st =>
      { acc with
        success_count := acc.success_count + 1,
        db := { st with
          sales := st.sales ++
            [⟨st.nextSaleId, sid, e.staff_name, e.flight_no, e.sale_date,
              e.sale_amount, e.sale_target,
              if 0 < e.sale_target then e.sale_amount / e.sale_target else 0⟩],
          nextSaleId := st.nextSaleId + 1 } }
    | .raised st => { acc with db := st, raised := true }

/-- The outcome `add_batch_flight_sales` reports: the boolean/message pair is
built from `success_count` and `fail_messages`, which we keep structured;
`aborted` is the `except Exception` path (rollback and a 系统异常 message). -/
structure BatchResult where
  ok : Bool
  success_count : Nat
  fail_messages : List String
  store : Store
  aborted : Bool
deriving DecidableEq

/-- Source function `add_batch_flight_sales` (app.py lines 243-291).  It
acquires the module-level connection (free at entry, so acquisition
succeeds) and holds it for the whole loop; an exception escaping the loop is
caught by its `except Exception`, which rolls back the uncommitted inserts. -/
def add_batch_flight_sales (store : Store) (entries : List BatchEntry) : BatchResult :=
  let r := entries.foldl addBatchStep ⟨0, [], store, false⟩
  if r.raised then
    { ok := false, success_count := r.success_count, fail_messages := r.fail_messages,
      store := store, aborted := true }
  else
    { ok := decide (0 < r.success_count), success_count := r.success_count,
      fail_messages := r.fail_messages, store := r.db, aborted := false }

/-- The inclusive date-range filter shared by both queries
(`sale_date >= ?` / `sale_date <= ?`). -/
def inDateRange (start_date end_date : Option Nat) (r : Sale) : Bool :=
  (match start_date with | some d => decide (d ≤ r.sale_date) | none => true) &&
  (match end_date with | some d => decide (r.sale_date ≤ d) | none => true)

/-- Stable insertion into a `le`-sorted list. -/
def insertSorted {α : Type} (le : α → α → Bool) (x : α) : List α → List α
  | [] => [x]
  | y :: ys => if le x y then x :: y :: ys else y :: insertSorted le x ys

/-- Stable insertion sort; models an `ORDER BY` applied to rows scanned in
rowid order (ties keep their scan order, as SQLite's scan produces them). -/
def sortBy {α : Type} (le : α → α → Bool) : List α → List α
  | [] => []
  | x :: xs => insertSorted le x (sortBy le xs)

/-- Comparator for `ORDER BY sale_date DESC, id DESC` (app.py line 353). -/
def staffOrder (a b : Sale) : Bool :=
  decide (b.sale_date < a.sale_date) ||
    (a.sale_date == b.sale_date && decide (b.id ≤ a.id))

/-- Comparator for `ORDER BY sale_date DESC` (app.py line 383).  SQLite
satisfies this ORDER BY with a reverse scan of `idx_flight_date`, whose
entries are ordered by `(sale_date, rowid)` ascending — reversed, rows with
equal dates come back rowid- (that is, id-) descending. -/
def dateOrder (a b : Sale) : Bool :=
  decide (b.sale_date < a.sale_date) ||
    (a.sale_date == b.sale_date && decide (b.id ≤ a.id))

/-- Source function `get_staff_sales` (app.py lines 339-366): one owner's rows in the
inclusive date range, ordered by date descending then id descending. -/
def get_staff_sales (store : Store) (staff_id : Nat) (start_date end_date : Option Nat) :
    List Sale :=
  sortBy staffOrder
    ((store.sales.filter (fun r => r.staff_id == staff_id)).filter
      (inDateRange start_date end_date))

/-- Source function `get_all_staff_sales` (app.py lines 369-392): every owner's rows in the
inclusive date range, ordered by date descending only. -/
def get_all_staff_sales (store : Store) (start_date end_date : Option Nat) : List Sale :=
  sortBy dateOrder (store.sales.filter (inDateRange start_date end_date))

/-- Sum of `sale_amount` over a record set (pandas `["sale_amount"].sum()`). -/
def sumAmount (rs : List Sale) : ℚ := (rs.map (fun r => r.sale_amount)).sum

/-- Sum of `sale_target` over a record set (pandas `["sale_target"].sum()`). -/
def sumTarget (rs : List Sale) : ℚ := (rs.map (fun r => r.sale_target)).sum

/-- The guarded overall completion rate of the dashboards
(app.py lines 754-756 and 816-818):
`total_amount / total_target if total_target > 0 else 0`. -/
def total_rate (rs : List Sale) : ℚ :=
  if 0 < sumTarget rs then sumAmount rs / sumTarget rs else 0

/-- A pandas float that may be an IEEE special value. -/
inductive PandasVal where
  | fin : ℚ → PandasVal
  | posInf : PandasVal
  | negInf : PandasVal
  | nan : PandasVal
deriving DecidableEq

/-- pandas (IEEE-754) division: finite quotient when the divisor is nonzero,
otherwise `±inf` or `nan` — never silently `0`. -/
def pdDiv (a b : ℚ) : PandasVal :=
  if b ≠ 0 then .fin (a / b)
  else if 0 < a then .posInf
  else if a < 0 then .negInf
  else .nan

/-- IEEE `>` on pandas floats (`nan` incomparable), as pandas ranking uses. -/
def pdGt : PandasVal → PandasVal → Bool
  | .fin a, .fin b => decide (b < a)
  | .posInf, .fin _ => true
  | .posInf, .negInf => true
  | .fin _, .negInf => true
  | _, _ => false

/-- Per-group `sale_amount` sum of `groupby("staff_name")` (app.py lines 401-404). -/
def groupAmount (rs : List Sale) (n : String) : ℚ :=
  sumAmount (rs.filter (fun r => r.staff_name == n))

/-- Per-group `sale_target` sum of `groupby("staff_name")` (app.py lines 401-404). -/
def groupTarget (rs : List Sale) (n : String) : ℚ :=
  sumTarget (rs.filter (fun r => r.staff_name == n))

/-- The per-group completion rate of `get_staff_ranking` (app.py line 405):
`ranking_df["sale_amount"] / ranking_df["sale_target"]` — an unguarded
pandas division. -/
def groupRate (rs : List Sale) (n : String) : PandasVal :=
  pdDiv (groupAmount rs n) (groupTarget rs n)

/-- First-occurrence deduplication of group keys. -/
def uniqueNamesAux : List String → List String → List String
  | _, [] => []
  | seen, n :: ns =>
    if n ∈ seen then uniqueNamesAux seen ns else n :: uniqueNamesAux (n :: seen) ns

/-- The group keys of `groupby("staff_name")`, sorted ascending as pandas does. -/
def groupKeys (rs : List Sale) : List String :=
  sortBy (fun a b => decide (a ≤ b)) (uniqueNamesAux [] (rs.map (fun r => r.staff_name)))

/-- One row of the ranking dataframe. -/
structure RankRow where
  staff_name : String
  sale_amount : ℚ
  sale_target : ℚ
  completion_rate : PandasVal
  rank : Nat
deriving DecidableEq

/-- Source function `get_staff_ranking` (app.py lines 395-415): group the admin query by
`staff_name`, divide the sums (unguarded), rank by completion rate descending
with pandas `method="min"` (rank = 1 + number of strictly greater rates), and
sort by rank. -/
def get_staff_ranking (store : Store) (start_date end_date : Option Nat) : List RankRow :=
  let df := get_all_staff_sales store start_date end_date
  if df.isEmpty then []
  else
    let names := groupKeys df
    let rates := names.map (fun n => groupRate df n)
    let ranked := names.map (fun n =>
      { staff_name := n, sale_amount := groupAmount df n, sale_target := groupTarget df n,
        completion_rate := groupRate df n,
        rank := 1 + (rates.filter (fun x => pdGt x (groupRate df n))).length })
    sortBy (fun a b => decide (a.rank ≤ b.rank)) ranked

/-- Look a staff member's row up in the ranking output. -/
def rankOfName (rows : List RankRow) (n : String) : Option Nat :=
  (rows.find? (fun r => r.staff_name == n)).map (fun r => r.rank)

/-- Test fixture: the five-row batch of the spec's example; row 3 has amount 0. -/
def ex5 : List BatchEntry :=
  [⟨"A1", "F1", 10, 100, 100⟩, ⟨"A2", "F1", 10, 100, 100⟩, ⟨"A3", "F1", 10, 0, 100⟩,
   ⟨"A4", "F1", 10, 100, 100⟩, ⟨"A5", "F1", 10, 100, 100⟩]

/-- Test fixture: a freshly initialised database holding only the admin account. -/
def store0 : Store := ⟨[⟨1, "admin", "Admin123@", "系统管理员", true⟩], 2, [], 1⟩

/-- Test fixture: a sales row whose target is 0 (allowed by the table's
`CHECK(sale_target >= 0)`). -/
def c2Sale : Sale := ⟨1, 1, "a", "F1", 1, 5, 0, 0⟩

/-- Test fixture: a database whose only sales row has target 0. -/
def c2Store : Store := ⟨[], 1, [c2Sale], 2⟩

/-- Test fixture: a one-row record set with positive target. -/
def w2tbl : List Sale := [⟨1, 1, "b", "F1", 1, 1, 2, 0⟩]

/-- Test fixture: two sales rows sharing one date, inserted as ids 1 then 2. -/
def tieStore : Store :=
  ⟨[], 1, [⟨1, 1, "A", "F1", 5, 1, 1, 1⟩, ⟨2, 2, "B", "F1", 5, 1, 1, 1⟩], 3⟩

/-- Test fixture: three owners with completion rates 1, 1 and 1/2, on
distinct dates. -/
def rtbl : List Sale :=
  [⟨1, 1, "A", "F1", 12, 10, 10, 1⟩, ⟨2, 2, "B", "F1", 11, 4, 4, 1⟩,
   ⟨3, 3, "C", "F1", 10, 1, 2, 1/2⟩]

/-- Test fixture: a database holding `rtbl`. -/
def rstore : Store := ⟨[], 1, rtbl, 4⟩

/-- Test fixture: a one-owner record set with completion rate 1. -/
def w4tbl : List Sale := [⟨1, 1, "w", "F1", 1, 2, 2, 1⟩]

/-- Test fixture: a database holding `w4tbl`. -/
def w4store : Store := ⟨[], 1, w4tbl, 2⟩

/-- Test fixture: the ranking row produced for owner `w` of `w4tbl`. -/
def w4row : RankRow := ⟨"w", 2, 2, PandasVal.fin 1, 1⟩

/-- Test fixture: the staff table right after `init_db` (admin only). -/
def adminStaff : List Staff := [⟨1, "admin", "Admin123@", "系统管理员", true⟩]

/-- Test fixture: two sales rows owned by two different staff ids. -/
def d6store : Store :=
  ⟨[], 1, [⟨1, 1, "A", "F1", 1, 1, 1, 1⟩, ⟨2, 2, "B", "F1", 1, 1, 1, 1⟩], 3⟩

/-- Test fixture: a single registered non-admin user. -/
def aliceStaff : List Staff := [⟨1, "alice", "Secret1", "Alice", false⟩]

/-- Test fixture: a database holding only the admin account, next staff id 2. -/
def adminStore : Store := ⟨[⟨1, "admin", "Admin123@", "系统管理员", true⟩], 2, [], 1⟩

/-- Membership in an insertion is membership in the inserted list or the element. -/
theorem mem_insertSorted {α : Type} (le : α → α → Bool) (x y : α) (l : List α) :
    y ∈ insertSorted le x l ↔ y = x ∨ y ∈ l := by
  induction l with
  | nil => simp [insertSorted]
  | cons z zs ih =>
    rw [insertSorted]
    by_cases h : le x z
    · rw [if_pos h]
      simp [List.mem_cons]
    · rw [if_neg h]
      simp only [List.mem_cons, ih]
      tauto

/-- Inserting into a sorted list keeps it sorted, for a total transitive order. -/
theorem pairwise_insertSorted {α : Type} (le : α → α → Bool)
    (total : ∀ a b, le a b = true ∨ le b a = true)
    (htrans : ∀ a b c, le a b = true → le b c = true → le a c = true)
    (x : α) (l : List α) (h : l.Pairwise (fun a b => le a b = true)) :
    (insertSorted le x l).Pairwise (fun a b => le a b = true) := by
  induction l with
  | nil => simp [insertSorted]
  | cons z zs ih =>
    rw [List.pairwise_cons] at h
    rw [insertSorted]
    by_cases hxz : le x z
    · rw [if_pos hxz]
      refine List.pairwise_cons.mpr ⟨?_, List.pairwise_cons.mpr h⟩
      intro w hw
      rcases List.mem_cons.mp hw with rfl | hw'
      · exact hxz
      · exact htrans x z w hxz (h.1 w hw')
    · rw [if_neg hxz]
      refine List.pairwise_cons.mpr ⟨?_, ih h.2⟩
      intro w hw
      rcases (mem_insertSorted le x w zs).mp hw with rfl | hw'
      · rcases total w z with h1 | h1
        · exact absurd h1 hxz
        · exact h1
      · exact h.1 w hw'

/-- The insertion sort is sorted, for a total transitive order. -/
theorem sortBy_pairwise {α : Type} (le : α → α → Bool)
    (total : ∀ a b, le a b = true ∨ le b a = true)
    (htrans : ∀ a b c, le a b = true → le b c = true → le a c = true)
    (l : List α) : (sortBy le l).Pairwise (fun a b => le a b = true) := by
  induction l with
  | nil => simp [sortBy]
  | cons x xs ih => exact pairwise_insertSorted le total htrans x _ ih

/-- Sorting does not change membership. -/
theorem mem_sortBy {α : Type} (le : α → α → Bool) (y : α) (l : List α) :
    y ∈ sortBy le l ↔ y ∈ l := by
  induction l with
  | nil => simp [sortBy]
  | cons x xs ih =>
    rw [sortBy, mem_insertSorted, ih, List.mem_cons]

/-- Insertion produces a permutation of consing. -/
theorem insertSorted_perm {α : Type} (le : α → α → Bool) (x : α) (l : List α) :
    (insertSorted le x l).Perm (x :: l) := by
  induction l with
  | nil => simp [insertSorted]
  | cons z zs ih =>
    rw [insertSorted]
    by_cases h : le x z
    · rw [if_pos h]
    · rw [if_neg h]
      exact (List.Perm.cons z ih).trans (List.Perm.swap x z zs)

/-- Sorting produces a permutation of the input. -/
theorem sortBy_perm {α : Type} (le : α → α → Bool) (l : List α) :
    (sortBy le l).Perm l := by
  induction l with
  | nil => simp [sortBy]
  | cons x xs ih =>
    exact (insertSorted_perm le x (sortBy le xs)).trans (List.Perm.cons x ih)

/-- Filter counts are invariant under sorting. -/
theorem sortBy_filter_length {α : Type} (le : α → α → Bool) (p : α → Bool) (l : List α) :
    ((sortBy le l).filter p).length = (l.filter p).length :=
  ((sortBy_perm le l).filter p).length_eq

/-- Filtering a mapped list counts the preimages that pass the composed test. -/
theorem length_filter_map {α β : Type} (f : α → β) (p : β → Bool) (l : List α) :
    ((l.map f).filter p).length = (l.filter (fun a => p (f a))).length := by
  induction l with
  | nil => rfl
  | cons x xs ih => by_cases h : p (f x) <;> simp [List.filter_cons, h, ih]

/-- Keeping the non-matches and counting the matches partitions a list's length. -/
theorem length_filter_not_add_countP {α : Type} (p : α → Bool) (l : List α) :
    (l.filter (fun a => ! p a)).length + l.countP p = l.length := by
  induction l with
  | nil => simp
  | cons x xs ih =>
    by_cases h : p x <;> simp [List.filter_cons, List.countP_cons, h] <;> omega

/-- Under unique ids, exactly one row matches an (id, owner) pair it carries. -/
theorem countP_match_eq_one (l : List Sale) (sid tid : Nat)
    (hnd : (l.map (fun x => x.id)).Nodup) (r : Sale) (hr : r ∈ l)
    (hid : r.id = sid) (hst : r.staff_id = tid) :
    l.countP (fun x => x.id == sid && x.staff_id == tid) = 1 := by
  induction l with
  | nil => cases hr
  | cons x xs ih =>
    rw [List.map_cons, List.nodup_cons] at hnd
    rcases List.mem_cons.mp hr with rfl | hr'
    · have hz : xs.countP (fun y => y.id == sid && y.staff_id == tid) = 0 := by
        rw [List.countP_eq_zero]
        intro y hy
        simp only [Bool.and_eq_true, beq_iff_eq, not_and]
        intro hyid _
        have h1 : y.id ∈ List.map (fun x => x.id) xs := List.mem_map_of_mem (fun x => x.id) hy
        rw [hyid, ← hid] at h1
        exact absurd h1 hnd.1
      rw [List.countP_cons]
      simp [hid, hst, hz]
    · have hx : ¬ (x.id == sid && x.staff_id == tid) = true := by
        simp only [Bool.and_eq_true, beq_iff_eq, not_and]
        intro hxid _
        have h1 : r.id ∈ List.map (fun x => x.id) xs := List.mem_map_of_mem (fun x => x.id) hr'
        rw [hid, ← hxid] at h1
        exact absurd h1 hnd.1
      rw [List.countP_cons, if_neg hx, Nat.add_zero]
      exact ih hnd.2 hr'

/-- While the connection is held, resolution of a non-empty name always
returns the connection-failure pair and leaves the store untouched. -/
theorem get_staff_id_held (st : Store) (n : String) (h : n ≠ "") :
    get_staff_id_by_name true st n = .result none "数据库连接失败" st := by
  simp [get_staff_id_by_name, h]

/-- Loop invariant of the batch fold: the counter and the store never change,
no exception escapes, and every row passing the field check contributes one
connection-failure message. -/
theorem addBatch_loop (entries : List BatchEntry) (c : Nat) (msgs : List String) (st : Store) :
    entries.foldl addBatchStep ⟨c, msgs, st, false⟩
      = ⟨c, msgs ++ (entries.filter (fun e => ! batchSkip e)).map
          (fun e => e.staff_name ++ "：数据库连接失败"), st, false⟩ := by
  induction entries generalizing msgs with
  | nil => simp
  | cons e es ih =>
    rw [List.foldl_cons]
    by_cases hs : batchSkip e
    · have hstep : addBatchStep ⟨c, msgs, st, false⟩ e = ⟨c, msgs, st, false⟩ := by
        unfold addBatchStep
        simp [hs]
      rw [hstep, List.filter_cons_of_neg (by simp [hs]), ih]
    · rw [Bool.not_eq_true] at hs
      have hn : e.staff_name ≠ "" := by
        intro h
        rw [batchSkip] at hs
        simp [h] at hs
      have hstep : addBatchStep ⟨c, msgs, st, false⟩ e
          = ⟨c, msgs ++ [e.staff_name ++ "：数据库连接失败"], st, false⟩ := by
        have hlit : ("：" : String) ++ "数据库连接失败" = "：数据库连接失败" := by decide
        unfold addBatchStep
        simp [hs, get_staff_id_held st e.staff_name hn]
        rw [String.append_assoc, hlit]
      rw [hstep, List.filter_cons_of_pos (by simp [hs]), ih]
      simp

/-- Every row of the ranking output carries the pandas MIN rank: one plus the
number of output rows with a strictly greater completion rate. -/
theorem rank_eq_of_mem (store : Store) (sd ed : Option Nat) (r : RankRow)
    (h : r ∈ get_staff_ranking store sd ed) :
    r.rank = 1 + ((get_staff_ranking store sd ed).filter
      (fun x => pdGt x.completion_rate r.completion_rate)).length := by
  by_cases hdf : (get_all_staff_sales store sd ed).isEmpty = true
  · rw [get_staff_ranking, if_pos hdf] at h
    cases h
  · have hRK : get_staff_ranking store sd ed
        = sortBy (fun a b => decide (a.rank ≤ b.rank))
          ((groupKeys (get_all_staff_sales store sd ed)).map (fun n =>
            { staff_name := n,
              sale_amount := groupAmount (get_all_staff_sales store sd ed) n,
              sale_target := groupTarget (get_all_staff_sales store sd ed) n,
              completion_rate := groupRate (get_all_staff_sales store sd ed) n,
              rank := 1 + (((groupKeys (get_all_staff_sales store sd ed)).map
                  (fun m => groupRate (get_all_staff_sales store sd ed) m)).filter
                (fun x => pdGt x
                  (groupRate (get_all_staff_sales store sd ed) n))).length })) := by
      rw [get_staff_ranking, if_neg hdf]
    rw [hRK] at h ⊢
    rw [mem_sortBy] at h
    obtain ⟨n, hn, hmk⟩ := List.mem_map.mp h
    have hcr : r.completion_rate = groupRate (get_all_staff_sales store sd ed) n := by
      rw [← hmk]
    have hrank : r.rank = 1 + (((groupKeys (get_all_staff_sales store sd ed)).map
        (fun m => groupRate (get_all_staff_sales store sd ed) m)).filter
        (fun x => pdGt x (groupRate (get_all_staff_sales store sd ed) n))).length := by
      rw [← hmk]
    rw [hrank, hcr]
    congr 1
    rw [sortBy_filter_length]
    rw [length_filter_map, length_filter_map]

/-- Claim C1, counterexample: for the spec's 5-row batch whose row 3 has
amount 0, `add_batch_flight_sales` reports 0 inserted — not 4 — and one
connection-failure message for each of the four field-valid rows, none of
which references row 3's owner name `A3` (that row is skipped by a bare
`continue`): inside the batch the module-level connection is held, so every
nested `DBManager.get_conn` hits the nonexistent `Connection.closed`
attribute and staff resolution fails. -/
theorem C1_counterexample :
    (add_batch_flight_sales store0 ex5).success_count = 0 ∧
    (add_batch_flight_sales store0 ex5).fail_messages
      = ["A1：数据库连接失败", "A2：数据库连接失败",
         "A4：数据库连接失败", "A5：数据库连接失败"] ∧
    (add_batch_flight_sales store0 ex5).ok = false := by
  have h := addBatch_loop ex5 0 [] store0
  have hb1 : batchSkip ⟨"A1", "F1", 10, 100, 100⟩ = false := by
    norm_num [batchSkip]
    exact ⟨by decide, by decide⟩
  have hb2 : batchSkip ⟨"A2", "F1", 10, 100, 100⟩ = false := by
    norm_num [batchSkip]
    exact ⟨by decide, by decide⟩
  have hb3 : batchSkip ⟨"A3", "F1", 10, 0, 100⟩ = true := by norm_num [batchSkip]
  have hb4 : batchSkip ⟨"A4", "F1", 10, 100, 100⟩ = false := by
    norm_num [batchSkip]
    exact ⟨by decide, by decide⟩
  have hb5 : batchSkip ⟨"A5", "F1", 10, 100, 100⟩ = false := by
    norm_num [batchSkip]
    exact ⟨by decide, by decide⟩
  refine ⟨?_, ?_, ?_⟩ <;>
  · simp only [add_batch_flight_sales, h]
    simp [ex5, List.filter_cons, hb1, hb2, hb3, hb4, hb5]

/-- Claim C1 (amended): `add_batch_flight_sales` never raises for a partial
failure, but as shipped it inserts NOTHING: while it holds the module-level
connection, every nested `DBManager.get_conn` inside `get_staff_id_by_name`
fails (`sqlite3.Connection` has no `.closed` attribute), so each row passing
the field check yields a `名字：数据库连接失败` entry, the count of inserted
rows is 0, and the store is unchanged; rows failing the field check (empty
name/flight number or non-positive amount/target) are skipped silently with
no (name, reason) entry at all. -/
theorem C1_batch_reporting (store : Store) (entries : List BatchEntry) :
    (add_batch_flight_sales store entries).success_count = 0 ∧
    (add_batch_flight_sales store entries).fail_messages
      = (entries.filter (fun e => ! batchSkip e)).map
          (fun e => e.staff_name ++ "：数据库连接失败") ∧
    (add_batch_flight_sales store entries).store = store ∧
    (add_batch_flight_sales store entries).aborted = false := by
  have h := addBatch_loop entries 0 [] store
  simp only [add_batch_flight_sales, h]
  simp

/-- Claim C2, counterexample: on a record set whose single row has target 0
(the table's CHECK only demands target ≥ 0), the per-owner completion rate
used for ranking is the unguarded division `5 / 0`, which in pandas is +inf —
not the 0 the claim demands. -/
theorem C2_counterexample :
    (get_staff_ranking c2Store none none).map (fun r => r.completion_rate)
        = [PandasVal.posInf] ∧
    PandasVal.posInf ≠ PandasVal.fin 0 := by
  have hall : get_all_staff_sales c2Store none none = [c2Sale] := by
    simp [get_all_staff_sales, c2Store, inDateRange, sortBy, insertSorted]
  have hkeys : groupKeys [c2Sale] = ["a"] := by decide
  have ha : groupAmount [c2Sale] "a" = 5 := by norm_num [groupAmount, sumAmount, c2Sale]
  have ht : groupTarget [c2Sale] "a" = 0 := by norm_num [groupTarget, sumTarget, c2Sale]
  have hr : groupRate [c2Sale] "a" = PandasVal.posInf := by
    rw [groupRate, ha, ht]
    norm_num [pdDiv]
  refine ⟨?_, by decide⟩
  simp only [c2Sale] at hall hkeys hr
  simp [get_staff_ranking, hall, hkeys, hr, sortBy, insertSorted, c2Sale]

/-- Claim C2 (amended): the overall dashboard rate is guarded —
amount_sum/target_sum when target_sum > 0 and 0 when target_sum = 0, with an
empty record set totalling (0, 0, 0) — and the per-owner-group ranking rate
equals amount_sum/target_sum whenever the group's target_sum > 0; when a
group's target_sum is 0 the unguarded division yields an IEEE special value
instead of 0 (see the counterexample). -/
theorem C2_completion_rate_guard (rs : List Sale) (n : String)
    (h : 0 < groupTarget rs n) :
    (0 < sumTarget rs → total_rate rs = sumAmount rs / sumTarget rs) ∧
    (sumTarget rs = 0 → total_rate rs = 0) ∧
    sumAmount ([] : List Sale) = 0 ∧ sumTarget ([] : List Sale) = 0 ∧
    total_rate ([] : List Sale) = 0 ∧
    groupRate rs n = PandasVal.fin (groupAmount rs n / groupTarget rs n) := by
  refine ⟨fun hp => by rw [total_rate, if_pos hp],
    fun hz => by rw [total_rate]; simp [hz],
    rfl, rfl,
    by rw [total_rate]; norm_num [sumTarget, sumAmount],
    ?_⟩
  rw [groupRate, pdDiv, if_pos h.ne']

/-- Claim C2, witness: a concrete group with positive target satisfies the
guard hypothesis, and its ranking rate is the finite quotient. -/
theorem C2_completion_rate_guard_witness :
    0 < groupTarget w2tbl "b" ∧
    groupRate w2tbl "b" = PandasVal.fin (groupAmount w2tbl "b" / groupTarget w2tbl "b") := by
  have h : 0 < groupTarget w2tbl "b" := by norm_num [groupTarget, sumTarget, w2tbl]
  exact ⟨h, (C2_completion_rate_guard w2tbl "b" h).2.2.2.2.2⟩

/-- Claim C3: both the single-owner query (whose SQL orders by
`sale_date DESC, id DESC` explicitly) and the all-owners admin query (whose
`ORDER BY sale_date DESC` is satisfied by a reverse scan of
`idx_flight_date`, giving id-descending ties) return rows ordered by date
descending and, within equal dates, by id descending — newest insert first —
and the single-owner query returns only that owner's rows. -/
theorem C3_query_ordering (store : Store) (sid : Nat) (sd ed : Option Nat) :
    (get_staff_sales store sid sd ed).Pairwise
      (fun a b => b.sale_date < a.sale_date ∨ (a.sale_date = b.sale_date ∧ b.id ≤ a.id)) ∧
    (∀ r ∈ get_staff_sales store sid sd ed, r.staff_id = sid) ∧
    (get_all_staff_sales store sd ed).Pairwise
      (fun a b => b.sale_date < a.sale_date ∨ (a.sale_date = b.sale_date ∧ b.id ≤ a.id)) := by
  refine ⟨?_, ?_, ?_⟩
  · have h := sortBy_pairwise staffOrder
      (by intro a b; simp [staffOrder]; omega)
      (by intro a b c h1 h2; simp [staffOrder] at h1 h2 ⊢; omega)
      ((store.sales.filter (fun r => r.staff_id == sid)).filter (inDateRange sd ed))
    exact h.imp (fun {a b} hab => by simpa [staffOrder] using hab)
  · intro r hr
    rw [get_staff_sales, mem_sortBy] at hr
    have h2 := List.of_mem_filter (List.mem_of_mem_filter hr)
    simpa using h2
  · have h := sortBy_pairwise dateOrder
      (by intro a b; simp [dateOrder]; omega)
      (by intro a b c h1 h2; simp [dateOrder] at h1 h2 ⊢; omega)
      (store.sales.filter (inDateRange sd ed))
    exact h.imp (fun {a b} hab => by simpa [dateOrder] using hab)

/-- Claim C3, witness: the ordering theorem instantiated at a concrete store
and owner, plus a concrete check that two same-date rows inserted as ids
1 then 2 come back newest-insert-first, [2, 1]. -/
theorem C3_query_ordering_witness :
    ((get_staff_sales tieStore 1 none none).Pairwise
      (fun a b => b.sale_date < a.sale_date ∨ (a.sale_date = b.sale_date ∧ b.id ≤ a.id)) ∧
    (∀ r ∈ get_staff_sales tieStore 1 none none, r.staff_id = 1) ∧
    (get_all_staff_sales tieStore none none).Pairwise
      (fun a b => b.sale_date < a.sale_date ∨ (a.sale_date = b.sale_date ∧ b.id ≤ a.id))) ∧
    (get_all_staff_sales tieStore none none).map (fun r => r.id) = [2, 1] :=
  ⟨C3_query_ordering tieStore 1 none none, by decide⟩

/-- Claim C4: the ranking assigns MIN-style ranks by completion rate
descending — every output row's rank is one plus the number of rows with a
strictly greater rate, so tied owners share the smallest eligible rank and the
next distinct rate is offset by the number of entries ranked ahead; concretely,
for owners with rates 1, 1 and 1/2 the ranks are 1, 1 and 3. -/
theorem C4_min_rank (store : Store) (sd ed : Option Nat) (r1 r2 : RankRow)
    (h1 : r1 ∈ get_staff_ranking store sd ed)
    (h2 : r2 ∈ get_staff_ranking store sd ed) :
    r1.rank = 1 + ((get_staff_ranking store sd ed).filter
        (fun x => pdGt x.completion_rate r1.completion_rate)).length ∧
    (r1.completion_rate = r2.completion_rate → r1.rank = r2.rank) ∧
    rankOfName (get_staff_ranking rstore none none) "A" = some 1 ∧
    rankOfName (get_staff_ranking rstore none none) "B" = some 1 ∧
    rankOfName (get_staff_ranking rstore none none) "C" = some 3 := by
  have hall : get_all_staff_sales rstore none none = rtbl := by
    simp [get_all_staff_sales, rstore, rtbl, sortBy, insertSorted, dateOrder, inDateRange]
  have hkeys : groupKeys rtbl = ["A", "B", "C"] := by
    simp [groupKeys, rtbl, uniqueNamesAux, sortBy, insertSorted]
    decide
  have hne : rtbl ≠ [] := by simp [rtbl]
  have fA : rtbl.filter (fun r => r.staff_name == "A")
      = [⟨1, 1, "A", "F1", 12, 10, 10, 1⟩] := by
    simp [rtbl]
  have fB : rtbl.filter (fun r => r.staff_name == "B")
      = [⟨2, 2, "B", "F1", 11, 4, 4, 1⟩] := by
    simp [rtbl]
  have fC : rtbl.filter (fun r => r.staff_name == "C")
      = [⟨3, 3, "C", "F1", 10, 1, 2, 1/2⟩] := by
    simp [rtbl]
  have rA : groupRate rtbl "A" = PandasVal.fin 1 := by
    rw [groupRate, groupAmount, groupTarget, fA]
    norm_num [sumAmount, sumTarget, pdDiv]
  have rB : groupRate rtbl "B" = PandasVal.fin 1 := by
    rw [groupRate, groupAmount, groupTarget, fB]
    norm_num [sumAmount, sumTarget, pdDiv]
  have rC : groupRate rtbl "C" = PandasVal.fin 2⁻¹ := by
    rw [groupRate, groupAmount, groupTarget, fC]
    norm_num [sumAmount, sumTarget, pdDiv]
  have g1 : pdGt (PandasVal.fin 1) (PandasVal.fin 1) = false := by norm_num [pdGt]
  have g2 : pdGt (PandasVal.fin 2⁻¹) (PandasVal.fin 1) = false := by norm_num [pdGt]
  have g3 : pdGt (PandasVal.fin 1) (PandasVal.fin 2⁻¹) = true := by norm_num [pdGt]
  have g4 : pdGt (PandasVal.fin 2⁻¹) (PandasVal.fin 2⁻¹) = false := by norm_num [pdGt]
  refine ⟨rank_eq_of_mem store sd ed r1 h1, ?_, ?_, ?_, ?_⟩
  · intro hcr
    rw [rank_eq_of_mem store sd ed r1 h1, rank_eq_of_mem store sd ed r2 h2, hcr]
  all_goals
    simp [rankOfName, get_staff_ranking, hall, hkeys, hne, rA, rB, rC, g1, g2, g3, g4,
      sortBy, insertSorted]

/-- Claim C4, witness: for a concrete one-owner store, the produced ranking
row is a member of the output and satisfies the MIN-rank equation. -/
theorem C4_min_rank_witness :
    w4row ∈ get_staff_ranking w4store none none ∧
    w4row.rank = 1 + ((get_staff_ranking w4store none none).filter
      (fun x => pdGt x.completion_rate w4row.completion_rate)).length := by
  have hall : get_all_staff_sales w4store none none = w4tbl := by
    simp [get_all_staff_sales, w4store, w4tbl, sortBy, insertSorted, dateOrder, inDateRange]
  have hkeys : groupKeys w4tbl = ["w"] := by decide
  have hne : w4tbl ≠ [] := by simp [w4tbl]
  have fw : w4tbl.filter (fun r => r.staff_name == "w") = [⟨1, 1, "w", "F1", 1, 2, 2, 1⟩] := by
    simp [w4tbl]
  have rw1 : groupRate w4tbl "w" = PandasVal.fin 1 := by
    rw [groupRate, groupAmount, groupTarget, fw]
    norm_num [sumAmount, sumTarget, pdDiv]
  have aw : groupAmount w4tbl "w" = 2 := by
    rw [groupAmount, fw]
    norm_num [sumAmount]
  have tw : groupTarget w4tbl "w" = 2 := by
    rw [groupTarget, fw]
    norm_num [sumTarget]
  have g1 : pdGt (PandasVal.fin 1) (PandasVal.fin 1) = false := by norm_num [pdGt]
  have hmem : w4row ∈ get_staff_ranking w4store none none := by
    simp [get_staff_ranking, hall, hkeys, hne, rw1, aw, tw, g1, sortBy, insertSorted, w4row]
  exact ⟨hmem, (C4_min_rank w4store none none w4row w4row hmem hmem).1⟩

/-- Claim C5: once the session's failed-login counter has reached 5, every
further login attempt is rejected with the rate-limit message and the counter
is left unchanged — regardless of the credentials supplied — and any
successful login resets the counter to 0. -/
theorem C5_login_rate_limit (staff : List Staff) (u p : String) (a : Nat) :
    (5 ≤ a → login staff u p a = (none, "登录失败次数过多，请1分钟后再试", a)) ∧
    (∀ info m a', login staff u p a = (some info, m, a') → a' = 0) := by
  constructor
  · intro h
    simp [login, h]
  · intro info m a' h
    unfold login at h
    split at h
    · simp at h
    · split at h
      · split at h
        · injection h with h1 h2
          injection h2 with h3 h4
          exact h4.symm
        · simp at h
      · simp at h

/-- Claim C5, witness: at counter 5 even the CORRECT admin credentials are
rejected with the rate-limit message and the counter stays 5. -/
theorem C5_login_rate_limit_witness :
    5 ≤ 5 ∧
    check_password_hash "Admin123@" "Admin123@" = true ∧
    login adminStaff "admin" "Admin123@" 5
      = (none, "登录失败次数过多，请1分钟后再试", 5) :=
  ⟨by decide, by decide,
    (C5_login_rate_limit adminStaff "admin" "Admin123@" 5).1 (by decide)⟩

/-- Claim C6: `delete_flight_sale` always reports success and never touches the
staff table; when no row matches both the record id and the owner id the store
is unchanged (silent no-op); a row survives iff it does not match both keys;
the length drops by exactly the number of matching rows, which is exactly 1
when a matching row exists and ids are unique. -/
theorem C6_delete_owner_scoped (store : Store) (sale_id staff_id : Nat) :
    (delete_flight_sale store sale_id staff_id).1 = true ∧
    (delete_flight_sale store sale_id staff_id).2.2.staff = store.staff ∧
    ((∀ r ∈ store.sales, ¬(r.id = sale_id ∧ r.staff_id = staff_id)) →
      (delete_flight_sale store sale_id staff_id).2.2 = store) ∧
    (∀ r ∈ store.sales,
      (r ∈ (delete_flight_sale store sale_id staff_id).2.2.sales ↔
        ¬(r.id = sale_id ∧ r.staff_id = staff_id))) ∧
    ((delete_flight_sale store sale_id staff_id).2.2.sales.length
        + store.sales.countP (fun r => r.id == sale_id && r.staff_id == staff_id)
      = store.sales.length) ∧
    (∀ r ∈ store.sales, r.id = sale_id → r.staff_id = staff_id →
      (store.sales.map (fun x => x.id)).Nodup →
      store.sales.countP (fun x => x.id == sale_id && x.staff_id == staff_id) = 1) := by
  refine ⟨rfl, rfl, ?_, ?_, ?_, ?_⟩
  · intro h
    have heq : store.sales.filter
        (fun r => ! (r.id == sale_id && r.staff_id == staff_id)) = store.sales := by
      rw [List.filter_eq_self]
      intro r hr
      have := h r hr
      simp only [Bool.not_eq_eq_eq_not, Bool.not_false, Bool.and_eq_true, beq_iff_eq]
      simpa using this
    simp only [delete_flight_sale]
    rw [heq]
  · intro r hr
    simp [delete_flight_sale, List.mem_filter, hr]
    tauto
  · exact length_filter_not_add_countP _ store.sales
  · intro r hr hid hst hnd
    exact countP_match_eq_one store.sales sale_id staff_id hnd r hr hid hst

/-- Claim C6, witness: deleting record 1 with the wrong owner id 2 satisfies
the no-match hypothesis and leaves the concrete store unchanged, and owner 1's
matching delete removes exactly one row. -/
theorem C6_delete_owner_scoped_witness :
    (∀ r ∈ d6store.sales, ¬(r.id = 1 ∧ r.staff_id = 2)) ∧
    (delete_flight_sale d6store 1 2).2.2 = d6store ∧
    d6store.sales.countP (fun x => x.id == 1 && x.staff_id == 1) = 1 := by
  have h : ∀ r ∈ d6store.sales, ¬(r.id = 1 ∧ r.staff_id = 2) := by decide
  refine ⟨h, (C6_delete_owner_scoped d6store 1 2).2.2.1 h, ?_⟩
  exact (C6_delete_owner_scoped d6store 1 1).2.2.2.2.2
    ⟨1, 1, "A", "F1", 1, 1, 1, 1⟩ (by decide) rfl rfl (by decide)

/-- Claim C7: `add_flight_sale` fails iff the flight number is empty or the
amount or target is non-positive; on success it appends exactly one row whose
completion rate is amount/target (the target-0 guard cannot fire on success),
leaving the staff table unchanged. -/
theorem C7_add_record_validation (store : Store) (sid : Nat) (sn fn : String)
    (d : Nat) (a t : ℚ) :
    ((add_flight_sale store sid sn fn d a t).1 = false ↔ fn = "" ∨ a ≤ 0 ∨ t ≤ 0) ∧
    ((add_flight_sale store sid sn fn d a t).1 = true →
      (add_flight_sale store sid sn fn d a t).2.2.sales
        = store.sales ++ [⟨store.nextSaleId, sid, sn, fn, d, a, t, a / t⟩] ∧
      (add_flight_sale store sid sn fn d a t).2.2.staff = store.staff) := by
  by_cases h1 : a ≤ 0 ∨ t ≤ 0
  · refine ⟨?_, ?_⟩
    · simp only [add_flight_sale, if_pos h1]
      tauto
    · intro h
      rw [add_flight_sale, if_pos h1] at h
      simp at h
  · by_cases h2 : fn = ""
    · refine ⟨?_, ?_⟩
      · simp only [add_flight_sale, if_neg h1, if_pos h2]
        tauto
      · intro h
        rw [add_flight_sale, if_neg h1, if_pos h2] at h
        simp at h
    · have h1' : 0 < a ∧ 0 < t := by push_neg at h1; exact h1
      have heq : add_flight_sale store sid sn fn d a t
          = (true, "航班销售数据提交成功",
            { store with
              sales := store.sales ++
                [⟨store.nextSaleId, sid, sn, fn, d, a, t, a / t⟩],
              nextSaleId := store.nextSaleId + 1 }) := by
        unfold add_flight_sale
        simp only [if_neg h1, if_neg h2, if_pos h1'.2]
      refine ⟨?_, ?_⟩
      · rw [heq]
        simp [h1, h2]
      · intro _
        rw [heq]
        exact ⟨rfl, rfl⟩

/-- Claim C7, witness: inserting (amount 100, target 200) succeeds and persists
one row with completion rate 100/200. -/
theorem C7_add_record_validation_witness :
    (add_flight_sale ⟨[], 1, [], 1⟩ 1 "u" "F100" 1 100 200).1 = true ∧
    (add_flight_sale ⟨[], 1, [], 1⟩ 1 "u" "F100" 1 100 200).2.2.sales
      = [⟨1, 1, "u", "F100", 1, 100, 200, (100 : ℚ) / 200⟩] := by
  have h := C7_add_record_validation ⟨[], 1, [], 1⟩ 1 "u" "F100" 1 100 200
  have ht : (add_flight_sale ⟨[], 1, [], 1⟩ 1 "u" "F100" 1 100 200).1 = true := by
    rcases Bool.eq_false_or_eq_true
        ((add_flight_sale ⟨[], 1, [], 1⟩ 1 "u" "F100" 1 100 200).1) with htr | hf
    · exact htr
    · exfalso
      rcases h.1.mp hf with h' | h' | h'
      · simp at h'
      · norm_num at h'
      · norm_num at h'
  refine ⟨ht, ?_⟩
  have hs := (h.2 ht).1
  simpa using hs

/-- Claim C8: `is_strong_password` accepts iff the password has length at
least 6, an uppercase letter and a digit; `register` rejects empty usernames or
display names and accepts a strong password for a fresh non-empty pair; the
spec's four examples behave as stated. -/
theorem C8_password_policy (p : String) (store : Store) (u r : String) :
    ((is_strong_password p).1 = true ↔
      (6 ≤ p.length ∧ (∃ c ∈ p.data, 'A' ≤ c ∧ c ≤ 'Z') ∧ (∃ c ∈ p.data, '0' ≤ c ∧ c ≤ '9'))) ∧
    (u = "" ∨ r = "" → (register store u p r).1 = false) ∧
    (u ≠ "" → r ≠ "" → (is_strong_password p).1 = true →
      store.staff.any (fun s => s.username == u) = false → (register store u p r).1 = true) ∧
    (is_strong_password "abc12").1 = false ∧
    (is_strong_password "abcdef1").1 = false ∧
    (is_strong_password "Abcdef").1 = false ∧
    (is_strong_password "Abcdef1").1 = true := by
  refine ⟨?_, ?_, ?_, by decide, by decide, by decide, by decide⟩
  · unfold is_strong_password
    by_cases hl : p.length < 6
    · simp only [if_pos hl]
      constructor
      · intro h; simp at h
      · intro ⟨h6, _⟩; omega
    · simp only [if_neg hl]
      by_cases hu : p.data.any (fun c => decide ('A' ≤ c) && decide (c ≤ 'Z')) = true
      · by_cases hd : p.data.any (fun c => decide ('0' ≤ c) && decide (c ≤ '9')) = true
        · simp only [hu, hd]
          simp only [Bool.not_true, Bool.false_eq_true, if_false]
          constructor
          · intro _
            refine ⟨by omega, ?_, ?_⟩
            · simpa using hu
            · simpa using hd
          · intro _
            trivial
        · simp only [hu]
          constructor
          · intro h
            rw [Bool.not_eq_true] at hd
            simp [hd] at h
          · intro ⟨_, _, h9⟩
            exact absurd (by simpa using h9) hd
      · constructor
        · intro h
          rw [Bool.not_eq_true] at hu
          simp [hu] at h
        · intro ⟨_, h7, _⟩
          exact absurd (by simpa using h7) hu
  · intro h
    simp [register, h]
  · intro hu hr hs hd
    have hne : ¬ (u = "" ∨ r = "") := by tauto
    simp [register, hne, hs, hd]

/-- Claim C8, witness: `Abcdef1` is strong and registers successfully for a
fresh non-empty username and display name. -/
theorem C8_password_policy_witness :
    (is_strong_password "Abcdef1").1 = true ∧
    (register ⟨[], 1, [], 1⟩ "u" "Abcdef1" "r").1 = true := by
  have h := (C8_password_policy "Abcdef1" ⟨[], 1, [], 1⟩ "u" "r").2.2.1
  exact ⟨by decide, h (by decide) (by decide) (by decide) (by decide)⟩

/-- Claim C9: with the same attempt-counter state, a login for a nonexistent
username and a login for an existing username with a wrong password return
EXACTLY the same outcome — same result, same message, same new counter — so the
failure reveals nothing about whether the username exists. -/
theorem C9_auth_uniform_failure (staff : List Staff) (u1 p1 u2 p2 : String) (a : Nat)
    (h1 : ∀ s ∈ staff, s.username ≠ u1)
    (h2 : ∀ s ∈ staff, s.username = u2 → check_password_hash s.password_hash p2 = false) :
    login staff u1 p1 a = login staff u2 p2 a := by
  by_cases h5 : 5 ≤ a
  · simp [login, h5]
  · have e1 : findUser staff u1 = none := by
      rw [findUser, List.find?_eq_none]
      intro s hs
      simpa using h1 s hs
    rcases hf : findUser staff u2 with _ | s
    · simp [login, h5, e1, hf]
    · have hs : s ∈ staff := List.mem_of_find?_eq_some hf
      have hu : s.username = u2 := by
        have := List.find?_some hf
        simpa [findUser] using this
      have hc : check_password_hash s.password_hash p2 = false := h2 s hs hu
      simp [login, h5, e1, hf, hc]

/-- Claim C9, witness: against a store holding only `alice`, the failures for
the unknown user `bob` and for `alice` with a wrong password coincide. -/
theorem C9_auth_uniform_failure_witness :
    (∀ s ∈ aliceStaff, s.username ≠ "bob") ∧
    login aliceStaff "bob" "pw" 0 = login aliceStaff "alice" "typo" 0 := by
  have hh : ∀ s ∈ aliceStaff, s.username = "alice" →
      check_password_hash s.password_hash "typo" = false := by decide
  exact ⟨by decide, C9_auth_uniform_failure aliceStaff "bob" "pw" "alice" "typo" 0
    (by decide) hh⟩

/-- Claim C10, counterexample: in the program's only call context — inside
`add_batch_flight_sales`, which holds the module-level connection — resolving
the admin's display name does NOT auto-provision anything: the nested
`DBManager.get_conn` hits the nonexistent `Connection.closed` attribute and
returns `None`, so resolution returns the connection-failure pair and leaves
the store (admin account included) untouched. -/
theorem C10_counterexample :
    get_staff_id_by_name true adminStore "系统管理员"
      = ResolveOutcome.result none "数据库连接失败" adminStore := by decide

/-- Claim C10 (amended): the lookup-and-provision logic of
`get_staff_id_by_name` considers only non-admin accounts, but it only runs
when the module-level connection is free: then, for a name borne solely by
admins and with at most one username collision, it provisions a fresh
non-admin account with the default password `123456A` under the de-spaced
name (or its `_1` variant) and returns its fresh id, never the admin's; if
both usernames are taken the second `IntegrityError` escapes the function and
nothing is provisioned; and in the batch context (connection held) resolution
always returns the connection-failure pair without touching the store. -/
theorem C10_name_resolution (store : Store) (name : String)
    (hne : name ≠ "")
    (hadmin : ∀ s ∈ store.staff, s.real_name = name → s.is_admin = true)
    (hfresh : ∀ s ∈ store.staff, s.id < store.nextStaffId) :
    (∀ s ∈ store.staff, s.id ≠ store.nextStaffId) ∧
    (store.staff.any (fun s => s.username == removeSpaces name) = false ∨
        store.staff.any (fun s => s.username == removeSpaces name ++ "_1") = false →
      ∃ uname, get_staff_id_by_name false store name
        = ResolveOutcome.result (some store.nextStaffId)
            ("自动创建账号：" ++ uname ++ " / " ++ "123456A")
            { store with
              staff := store.staff ++ [⟨store.nextStaffId, uname, "123456A", name, false⟩],
              nextStaffId := store.nextStaffId + 1 }) ∧
    (store.staff.any (fun s => s.username == removeSpaces name) = true →
      store.staff.any (fun s => s.username == removeSpaces name ++ "_1") = true →
      get_staff_id_by_name false store name = ResolveOutcome.raised store) ∧
    get_staff_id_by_name true store name
      = ResolveOutcome.result none "数据库连接失败" store := by
  have hfind : store.staff.find?
      (fun s => s.real_name == name && s.is_admin == false) = none := by
    rw [List.find?_eq_none]
    intro s hs
    simp only [Bool.and_eq_true, beq_iff_eq, not_and]
    intro hrn
    rw [hadmin s hs hrn]
    simp
  have hids : ∀ s ∈ store.staff, s.id ≠ store.nextStaffId := by
    intro s hs
    exact Nat.ne_of_lt (hfresh s hs)
  refine ⟨hids, ?_, ?_, ?_⟩
  · intro hcol
    by_cases ht : store.staff.any (fun s => s.username == removeSpaces name) = true
    · have hu2 : store.staff.any
          (fun s => s.username == removeSpaces name ++ "_1") = false := by
        rcases hcol with h1 | h2
        · exact absurd ht (by simp [h1])
        · exact h2
      refine ⟨removeSpaces name ++ "_1", ?_⟩
      unfold get_staff_id_by_name
      rw [if_neg hne, hfind]
      simp only [Bool.false_eq_true, if_false, ht, if_true, hu2]
      rfl
    · refine ⟨removeSpaces name, ?_⟩
      unfold get_staff_id_by_name
      rw [if_neg hne, hfind]
      rw [Bool.not_eq_true] at ht
      simp only [Bool.false_eq_true, if_false, ht]
      rfl
  · intro ht hu2
    unfold get_staff_id_by_name
    rw [if_neg hne, hfind]
    simp only [Bool.false_eq_true, if_false, ht, if_true, hu2]
  · simp [get_staff_id_by_name, hne]

/-- Claim C10, witness: with only the admin (display name 系统管理员, id 1)
present, resolution with the connection held fails without provisioning, and
resolution with a free connection provisions a fresh non-admin account with
the default password and the fresh id 2, not the admin's id 1. -/
theorem C10_name_resolution_witness :
    ("系统管理员" : String) ≠ "" ∧
    (∀ s ∈ adminStore.staff, s.real_name = "系统管理员" → s.is_admin = true) ∧
    get_staff_id_by_name true adminStore "系统管理员"
      = ResolveOutcome.result none "数据库连接失败" adminStore ∧
    (∃ uname, get_staff_id_by_name false adminStore "系统管理员"
      = ResolveOutcome.result (some 2) ("自动创建账号：" ++ uname ++ " / " ++ "123456A")
        { adminStore with
          staff := adminStore.staff ++ [⟨2, uname, "123456A", "系统管理员", false⟩],
          nextStaffId := 3 }) := by
  have h := C10_name_resolution adminStore "系统管理员" (by decide) (by decide) (by decide)
  obtain ⟨uname, heq⟩ := h.2.1 (Or.inl (by decide))
  exact ⟨by decide, by decide, h.2.2.2, ⟨uname, heq⟩⟩

end FlightSales
